import Mathlib

/-!
Verification of the concurrent ETL framework (extract / transform / load /
output processors and their orchestrator) against its natural-language
specification.  The Python sources are shallowly embedded: record sets become
lists of rows, fallible operations return `Except` or `Option`, the stats
sink becomes an explicit value threaded through each call, and the
nondeterministic completion order of a thread/process pool is modelled by
quantifying over permutations of the submitted work items.
-/

/-! ## Stats sink -/

/-- Modelled from the spec: the `ETLStats` class lives in `core/stats.py`,
which is not present in the sources; the spec describes it as mutable
counters `files_processed`, `rows_processed` and `error_counts`
(mapping error-kind to count), with `file_processed(path, rows)` and
`record_error(kind)` mutators used by every processor. -/
structure ETLStats where
  files_processed : Nat
  rows_processed : Nat
  error_counts : List (String × Nat)
deriving Repr, DecidableEq

def ETLStats.empty : ETLStats := ⟨0, 0, []⟩

/-- Increment the counter for `k` in an error-kind map, inserting it at 1
when absent. -/
def incCount (k : String) : List (String × Nat) → List (String × Nat)
  | [] => [(k, 1)]
  | (k2, n) :: rest => if k2 = k then (k2, n + 1) :: rest else (k2, n) :: incCount k rest

def ETLStats.record_error (s : ETLStats) (kind : String) : ETLStats :=
  { s with error_counts := incCount kind s.error_counts }

def ETLStats.file_processed (s : ETLStats) (rows : Nat) : ETLStats :=
  { s with files_processed := s.files_processed + 1
           rows_processed := s.rows_processed + rows }

/-- The count recorded for error kind `k` (0 when absent). -/
def countOf (k : String) (l : List (String × Nat)) : Nat :=
  match l with
  | [] => 0
  | (k2, n) :: rest => if k2 = k then n else countOf k rest

theorem countOf_incCount (k : String) (l : List (String × Nat)) :
    countOf k (incCount k l) = countOf k l + 1 := by
  induction l with
  | nil => simp [incCount, countOf]
  | cons p rest ih =>
    obtain ⟨k2, n⟩ := p
    by_cases hk : k2 = k
    · simp [incCount, countOf, hk]
    · simp [incCount, countOf, hk, ih]

/-! ## Extract processor (`processors/extract.py`) -/

/-- A source file as seen by `ExtractProcessor.process` through the external
reader obtained from `detect_file_format`: either the read yields a table of
rows, or it raises an exception whose kind (`type(e).__name__`) is recorded. -/
inductive ReadOutcome (α : Type) where
  | ok (rows : List α)
  | fail (kind : String)
deriving Repr, DecidableEq

namespace ExtractProcessor

/-- `ExtractProcessor.process`: reads the source; on success updates the
stats sink with the row count and returns the rows; on failure records the
error kind in the stats sink and re-raises (the `raise` statement re-raises
the original exception). -/
def process {α : Type} (stats : ETLStats) (src : ReadOutcome α) :
    Except (String × ETLStats) (List α × ETLStats) :=
  match src with
  | .ok rows => .ok (rows, stats.file_processed rows.length)
  | .fail k => .error (k, stats.record_error k)

/-- The result-collection loop of `process_concurrent`: a successful task's
rows are appended to `all_data`, a failed task is logged and excluded. -/
def collectLoop {α : Type} : List (ReadOutcome α) → List (List α) × ETLStats →
    List (List α) × ETLStats
  | [], acc => acc
  | src :: rest, (all_data, s) =>
    match process s src with
    | .ok (rows, s2) => collectLoop rest (all_data ++ [rows], s2)
    | .error (_, s2) => collectLoop rest (all_data, s2)

/-- `ExtractProcessor.process_concurrent`: collects the per-source results
over `as_completed` futures.  `completed` is the list of sources in
completion order (any permutation of the submitted sources).  The final
result is `pd.concat(all_data)` when non-empty, else an empty DataFrame —
both are `flatten` here. -/
def process_concurrent {α : Type} (stats : ETLStats) (completed : List (ReadOutcome α)) :
    List α × ETLStats :=
  let collected := collectLoop completed ([], stats)
  (collected.1.flatten, collected.2)

end ExtractProcessor

/-- The row tables of exactly those sources whose per-file read succeeds. -/
def successes {α : Type} (srcs : List (ReadOutcome α)) : List (List α) :=
  srcs.filterMap (fun s => match s with | .ok rows => some rows | .fail _ => none)

/-- The kind of the exception raised by an extract `process` call, when it
raised one. -/
def raisedKind {α : Type} (r : Except (String × ETLStats) (List α × ETLStats)) :
    Option String :=
  match r with
  | .error (k, _) => some k
  | .ok _ => none

theorem successes_append {α : Type} (l1 l2 : List (ReadOutcome α)) :
    successes (l1 ++ l2) = successes l1 ++ successes l2 := by
  simp [successes]

/-- The collection loop gathers exactly the successful tables, in completion
order. -/
theorem collectLoop_fst {α : Type} (completed : List (ReadOutcome α)) :
    ∀ (acc : List (List α)) (s : ETLStats),
      (ExtractProcessor.collectLoop completed (acc, s)).1 = acc ++ successes completed := by
  induction completed with
  | nil => intro acc s; simp [ExtractProcessor.collectLoop, successes]
  | cons src rest ih =>
    intro acc s
    cases src with
    | ok rows =>
      simp only [ExtractProcessor.collectLoop, ExtractProcessor.process]
      rw [ih]
      simp [successes]
    | fail k =>
      simp only [ExtractProcessor.collectLoop, ExtractProcessor.process]
      rw [ih]
      simp [successes]

theorem process_concurrent_fst {α : Type} (stats : ETLStats)
    (completed : List (ReadOutcome α)) :
    (ExtractProcessor.process_concurrent stats completed).1
      = (successes completed).flatten := by
  simp only [ExtractProcessor.process_concurrent]
  rw [collectLoop_fst completed [] stats]
  simp

/-- A permutation of the outer list of tables permutes the concatenation. -/
theorem flatten_perm_of_perm {α : Type} {l1 l2 : List (List α)}
    (h : l1.Perm l2) : l1.flatten.Perm l2.flatten := by
  induction h with
  | nil => exact List.Perm.refl _
  | cons x _ ih => simpa using ih.append_left x
  | swap x y l =>
    simp only [List.flatten_cons, ← List.append_assoc]
    exact (List.perm_append_comm).append_right _
  | trans _ _ ih1 ih2 => exact ih1.trans ih2

/-- C1: the merged extract result's row count is the sum of the row counts of
exactly the sources whose per-file `process` succeeded — failed sources are
excluded without aborting siblings — and this holds for every completion
order; moreover, if the source list is non-empty but every source fails, the
result is the empty DataFrame. -/
theorem extract_concurrent_rowcount {α : Type} (stats : ETLStats)
    (sources completed : List (ReadOutcome α))
    (hperm : completed.Perm sources) :
    (ExtractProcessor.process_concurrent stats completed).1.length
        = ((successes sources).map List.length).sum
    ∧ (sources ≠ [] → (∀ s ∈ sources, ∃ k, s = .fail k) →
        (ExtractProcessor.process_concurrent stats completed).1 = []) := by
  have hs : (successes completed).Perm (successes sources) :=
    hperm.filterMap _
  constructor
  · rw [process_concurrent_fst]
    rw [List.length_flatten]
    exact List.Perm.sum_eq (hs.map List.length)
  · intro _ hfail
    rw [process_concurrent_fst]
    have hnil : successes sources = [] := by
      simp only [successes, List.filterMap_eq_nil_iff]
      intro s hsmem
      obtain ⟨k, rfl⟩ := hfail s hsmem
      rfl
    have : successes completed = [] :=
      List.Perm.eq_nil (hnil ▸ hs)
    simp [this]

/-- Witness for `extract_concurrent_rowcount`: three sources of 2, 3 and 4
rows, the middle one failing, collected in a completion order different from
submission order: 6 rows survive; and a list of two failing sources yields
the empty table. -/
theorem extract_concurrent_rowcount_witness :
    ((ExtractProcessor.process_concurrent ETLStats.empty
        [ReadOutcome.ok [10, 11, 12, 13], ReadOutcome.fail "FileNotFoundError",
         ReadOutcome.ok [1, 2]]).1.length
      = ((successes [ReadOutcome.ok [1, 2], ReadOutcome.fail "FileNotFoundError",
          ReadOutcome.ok [10, 11, 12, 13]]).map List.length).sum)
    ∧ ((ExtractProcessor.process_concurrent ETLStats.empty
        [ReadOutcome.fail "ValueError", ReadOutcome.fail "FileNotFoundError"]).1
      = ([] : List Nat)) := by
  constructor
  · exact (extract_concurrent_rowcount ETLStats.empty
      [ReadOutcome.ok [1, 2], ReadOutcome.fail "FileNotFoundError",
       ReadOutcome.ok [10, 11, 12, 13]]
      [ReadOutcome.ok [10, 11, 12, 13], ReadOutcome.fail "FileNotFoundError",
       ReadOutcome.ok [1, 2]]
      (by decide)).1
  · exact (extract_concurrent_rowcount ETLStats.empty
      [ReadOutcome.fail "ValueError", ReadOutcome.fail "FileNotFoundError"]
      [ReadOutcome.fail "ValueError", ReadOutcome.fail "FileNotFoundError"]
      (List.Perm.refl _)).2 (by decide)
      (by intro s hs; fin_cases hs <;> exact ⟨_, rfl⟩)

/-- C6 counterexample: a source whose read fails with a `FileNotFoundError`
makes `ExtractProcessor.process` re-raise that same exception kind — not an
`ExtractError` as the claim states (the repository defines no such class and
its own test `test_extract_processor_file_read_exception` expects the
original `FileNotFoundError` to reach the caller). -/
theorem extract_reraises_original_not_extracterror :
    raisedKind (ExtractProcessor.process (α := Nat) ETLStats.empty
        (ReadOutcome.fail "FileNotFoundError")) = some "FileNotFoundError"
    ∧ some "FileNotFoundError" ≠ some "ExtractError" := by
  constructor
  · rfl
  · decide

/-- C6 (amended): for every source whose extraction fails,
`ExtractProcessor.process` increments the stats sink's counter for the
error's kind and then re-raises the original exception to the caller — it
neither swallows the failure nor returns a value. -/
theorem extract_process_fail_records_and_reraises {α : Type}
    (stats : ETLStats) (k : String) :
    ExtractProcessor.process (α := α) stats (ReadOutcome.fail k)
        = .error (k, stats.record_error k)
    ∧ countOf k (stats.record_error k).error_counts
        = countOf k stats.error_counts + 1 := by
  exact ⟨rfl, countOf_incCount k stats.error_counts⟩

/-! ## Transform processor (`processors/transform.py`) -/

/-- The section sizes used by `np.array_split(df, n)`: `len % n` sections of
size `len / n + 1` followed by `n - len % n` sections of size `len / n`. -/
def splitSizes (len n : Nat) : List Nat :=
  List.replicate (len % n) (len / n + 1) ++ List.replicate (n - len % n) (len / n)

/-- Cut a list into consecutive sections of the given sizes. -/
def splitBySizes {α : Type} : List Nat → List α → List (List α)
  | [], _ => []
  | s :: ss, l => l.take s :: splitBySizes ss (l.drop s)

/-- `np.array_split(df, n)`: `n` near-equal consecutive sections. -/
def arraySplit {α : Type} (l : List α) (n : Nat) : List (List α) :=
  splitBySizes (splitSizes l.length n) l

theorem flatten_splitBySizes {α : Type} (ss : List Nat) :
    ∀ l : List α, (splitBySizes ss l).flatten = l.take ss.sum := by
  induction ss with
  | nil => intro l; simp [splitBySizes]
  | cons s ss ih =>
    intro l
    simp only [splitBySizes, List.flatten_cons, ih, List.sum_cons]
    rw [List.take_add]

theorem splitSizes_sum (len n : Nat) (hn : 0 < n) : (splitSizes len n).sum = len := by
  have hr : len % n < n := Nat.mod_lt _ hn
  have hd := Nat.mod_add_div len n
  simp only [splitSizes, List.sum_append, List.sum_const_nat]
  have h3 : len % n * (len / n) ≤ n * (len / n) :=
    Nat.mul_le_mul_right _ (le_of_lt hr)
  have h2 : (n - len % n) * (len / n) = n * (len / n) - len % n * (len / n) :=
    Nat.sub_mul _ _ _
  rw [Nat.mul_add, Nat.mul_one, h2]
  omega

/-- Splitting and re-concatenating in section order is the identity. -/
theorem arraySplit_flatten {α : Type} (l : List α) (n : Nat) (hn : 0 < n) :
    (arraySplit l n).flatten = l := by
  rw [arraySplit, flatten_splitBySizes, splitSizes_sum _ _ hn, List.take_length]

/-- `_transform_chunk_worker`: applies the selected strategy to the chunk,
then the optional caller-supplied `custom_transform` hook, and returns
`(result, chunk index, no diagnostic)`.  The strategy and hook are Lean
functions, so the exception branch returning `(none, index, error info)`
is unreachable in this model. -/
def transform_chunk_worker {α β : Type} (strategy : List α → List β)
    (hook : Option (List β → List β)) (chunk : List α) (chunk_index : Nat) :
    Option (List β) × Nat × Option String :=
  let transformed := strategy chunk
  let transformed2 := match hook with
    | some h => h transformed
    | none => transformed
  (some transformed2, chunk_index, none)

namespace TransformProcessor

/-- `TransformProcessor.process_concurrent`: guards against a `None`/empty
input; splits the input into `num_partitions` near-equal sections; submits
one `_transform_chunk_worker` task per (chunk, index) pair to the process
pool; collects successful results in completion order (`completed` is the
submitted pairs in an arbitrary completion order); concatenates them, or
returns an empty DataFrame when none succeeded. -/
def process_concurrent {α β : Type} (strategy : List α → List β)
    (hook : Option (List β → List β)) (df : List α) (num_partitions : Nat)
    (completed : List (List α × Nat)) : List β :=
  if df.length = 0 then []
  else
    (completed.filterMap
      (fun ci => (transform_chunk_worker strategy hook ci.1 ci.2).1)).flatten

end TransformProcessor

theorem filterMap_some_eq_map {α β : Type} (g : α → β) (l : List α) :
    l.filterMap (fun x => some (g x)) = l.map g := by
  induction l with
  | nil => rfl
  | cons x rest ih => simp only [List.filterMap_cons, List.map_cons, ih]

theorem collect_workers_eq_map {α β : Type} (strategy : List α → List β)
    (completed : List (List α × Nat)) :
    completed.filterMap
        (fun ci => (transform_chunk_worker strategy none ci.1 ci.2).1)
      = completed.map (fun ci => strategy ci.1) := by
  simp only [transform_chunk_worker]
  exact filterMap_some_eq_map (fun ci => strategy ci.1) completed

/-- C2: for a transform strategy with no cross-row dependencies (i.e. one
that acts as a per-row map `f`), splitting a record set into any `N ≥ 1`
partitions, transforming each partition, and concatenating the successful
results in any completion order yields, up to row order, the same row-set
as applying the same strategy to the whole unpartitioned set. -/
theorem transform_partition_equiv {α β : Type} (f : α → β)
    (strategy : List α → List β) (hstrategy : ∀ l, strategy l = l.map f)
    (df : List α) (n : Nat) (hn : 0 < n)
    (completed : List (List α × Nat))
    (hperm : (completed.map Prod.fst).Perm (arraySplit df n)) :
    (TransformProcessor.process_concurrent strategy none df n completed).Perm
      (strategy df) := by
  by_cases hdf : df.length = 0
  · have : df = [] := List.length_eq_zero.mp hdf
    subst this
    simp [TransformProcessor.process_concurrent, hstrategy]
  · simp only [TransformProcessor.process_concurrent, hdf, if_false]
    rw [collect_workers_eq_map]
    have h1 : (completed.map (fun ci => strategy ci.1)).Perm
        ((arraySplit df n).map strategy) := by
      have := hperm.map strategy
      rwa [List.map_map] at this
    refine (flatten_perm_of_perm h1).trans ?_
    have h2 : (arraySplit df n).map strategy = (arraySplit df n).map (List.map f) :=
      List.map_congr_left (fun l _ => hstrategy l)
    rw [h2, ← List.map_flatten, arraySplit_flatten df n hn, hstrategy]

/-- Witness for `transform_partition_equiv`: doubling each of 5 rows across
3 partitions, collected out of order, is a permutation of doubling the whole
set. -/
theorem transform_partition_equiv_witness :
    (TransformProcessor.process_concurrent (fun l => l.map (fun x => 2 * x)) none
        [1, 2, 3, 4, 5] 3 [([3, 4], 1), ([5], 2), ([1, 2], 0)]).Perm
      ((fun l : List Nat => l.map (fun x => 2 * x)) [1, 2, 3, 4, 5]) :=
  transform_partition_equiv (fun x => 2 * x) _ (fun _ => rfl)
    [1, 2, 3, 4, 5] 3 (by decide) [([3, 4], 1), ([5], 2), ([1, 2], 0)] (by decide)

/-! ## Accounting transform strategy (`AccountingTransformStrategy.transform`) -/

/-- A date value, carrying the calendar components that
`pd.to_datetime(...).dt` exposes. -/
structure AcctDate where
  year : Nat
  month : Nat
  day : Nat
deriving Repr, DecidableEq

/-- One row of an accounting record set, with the columns the accounting
strategy reads: `date`, `voucher_id`, `account_code`, `direction`, `amount`. -/
structure AcctRow where
  date : AcctDate
  voucher_id : String
  account_code : String
  direction : String
  amount : ℚ
deriving Repr, DecidableEq

/-- One output row of the accounting strategy: the input row plus the derived
columns.  `is_balanced` is an `Option` because the left merge leaves `NaN`
for a voucher id absent from the balance-check table. -/
structure AcctRowOut where
  base : AcctRow
  year : Nat
  month : Nat
  day : Nat
  period : String
  statement_type : String
  debit_amount : ℚ
  credit_amount : ℚ
  is_balanced : Option Bool
deriving Repr, DecidableEq

/-- `strftime('%Y-%m')`: the zero-padded year-month period key. -/
def formatPeriod (d : AcctDate) : String :=
  toString d.year ++ "-" ++ (if d.month < 10 then "0" else "") ++ toString d.month

/-- The statement-type classifier: account codes starting with 1/2/3 are
balance-sheet, 4/5 are income-statement, anything else is other. -/
def get_statement_type (account_code : String) : String :=
  if account_code.startsWith "1" ∨ account_code.startsWith "2"
      ∨ account_code.startsWith "3" then "資產負債表"
  else if account_code.startsWith "4" ∨ account_code.startsWith "5" then "利潤表"
  else "其他"

/-- `debit_amount`: the amount when the direction flag is 借, else 0. -/
def debitOf (r : AcctRow) : ℚ := if r.direction = "借" then r.amount else 0

/-- `credit_amount`: the amount when the direction flag is 貸, else 0. -/
def creditOf (r : AcctRow) : ℚ := if r.direction = "貸" then r.amount else 0

/-- The debit sum of a voucher-id group. -/
def voucherDebitSum (df : List AcctRow) (v : String) : ℚ :=
  ((df.filter (fun r => r.voucher_id = v)).map debitOf).sum

/-- The credit sum of a voucher-id group. -/
def voucherCreditSum (df : List AcctRow) (v : String) : ℚ :=
  ((df.filter (fun r => r.voucher_id = v)).map creditOf).sum

/-- The distinct voucher ids of the record set (the `groupby` keys). -/
def voucherKeys (df : List AcctRow) : List String :=
  (df.map (fun r => r.voucher_id)).dedup

/-- Association-list lookup on a string key (the key-based `pd.merge`). -/
def alookup {β : Type} (k : String) : List (String × β) → Option β
  | [] => none
  | (k2, b) :: rest => if k2 = k then some b else alookup k rest

/-- The `balance_check` table: one row per voucher-id group, true when the
group's debit sum and credit sum differ by strictly less than 0.01. -/
def balance_check (df : List AcctRow) : List (String × Bool) :=
  (voucherKeys df).map
    (fun v => (v, decide (|voucherDebitSum df v - voucherCreditSum df v| < 1 / 100)))

namespace AccountingTransformStrategy

/-- `AccountingTransformStrategy.transform`: derives calendar fields and the
period key, classifies the statement type from the account code, splits the
signed amount into debit/credit columns by the direction flag, and stamps
every row with its voucher group's balance flag via a left merge against the
`balance_check` table. -/
def transform (df : List AcctRow) : List AcctRowOut :=
  let bc := balance_check df
  df.map (fun r =>
    { base := r
      year := r.date.year
      month := r.date.month
      day := r.date.day
      period := formatPeriod r.date
      statement_type := get_statement_type r.account_code
      debit_amount := debitOf r
      credit_amount := creditOf r
      is_balanced := alookup r.voucher_id bc })

end AccountingTransformStrategy

theorem alookup_map_self {β : Type} (g : String → β) (v : String)
    (keys : List String) (hv : v ∈ keys) :
    alookup v (keys.map (fun k => (k, g k))) = some (g v) := by
  induction keys with
  | nil => cases hv
  | cons k rest ih =>
    by_cases hk : k = v
    · subst hk; simp [alookup]
    · have : v ∈ rest := by
        cases List.mem_cons.mp hv with
        | inl h => exact absurd h.symm hk
        | inr h => exact h
      simp [alookup, hk, ih this]

/-- The single-row voucher used by the C3 counterexample: one debit leg of
exactly 0.01 and no credit leg. -/
def acctRowC : AcctRow := ⟨⟨2024, 1, 15⟩, "V1", "1001", "借", 1 / 100⟩

/-- C3 counterexample: a single-row voucher with a debit of 0.01 and no
credit has `|debit sum − credit sum| = 0.01 ≤ 0.01`, so the claim stamps it
balanced; the code's strict `< 0.01` comparison stamps it `false`. -/
theorem accounting_balance_tolerance_counterexample :
    |voucherDebitSum [acctRowC] "V1" - voucherCreditSum [acctRowC] "V1"| ≤ 1 / 100
    ∧ (AccountingTransformStrategy.transform [acctRowC]).map
        (fun r => r.is_balanced) = [some false] := by
  have h1 : voucherDebitSum [acctRowC] "V1" = 1 / 100 := by
    simp [voucherDebitSum, acctRowC, List.filter, debitOf]
  have h2 : voucherCreditSum [acctRowC] "V1" = 0 := by
    simp [voucherCreditSum, acctRowC, List.filter, creditOf]
  have hvc : acctRowC.voucher_id = "V1" := rfl
  have hb : balance_check [acctRowC] = [("V1", false)] := by
    simp only [balance_check, voucherKeys, List.map_cons, List.map_nil, hvc,
      List.dedup_nil, List.dedup_cons_of_not_mem (List.not_mem_nil "V1"), h1, h2]
    norm_num
    rw [abs_of_nonneg (show (0:ℚ) ≤ 1 / 100 by norm_num)]
  constructor
  · rw [h1, h2, sub_zero, abs_of_nonneg (show (0:ℚ) ≤ 1 / 100 by norm_num)]
  · have hmap : (AccountingTransformStrategy.transform [acctRowC]).map
        (fun r => r.is_balanced)
        = [alookup acctRowC.voucher_id (balance_check [acctRowC])] := rfl
    rw [hmap, hb, hvc]
    rfl

/-- C3 (amended): the accounting strategy stamps every row of a voucher with
`is_balanced = true` exactly when the voucher's debit sum and credit sum
differ in absolute value by strictly less than 0.01 (the code compares with
`< 0.01`, not `≤ 0.01`), and every output row does carry a boolean stamp. -/
theorem accounting_balance_stamp (df : List AcctRow) (r : AcctRowOut)
    (hr : r ∈ AccountingTransformStrategy.transform df) :
    r.is_balanced
      = some (decide (|voucherDebitSum df r.base.voucher_id
          - voucherCreditSum df r.base.voucher_id| < 1 / 100)) := by
  simp only [AccountingTransformStrategy.transform, List.mem_map] at hr
  obtain ⟨x, hx, rfl⟩ := hr
  simp only
  have hv : x.voucher_id ∈ voucherKeys df := by
    simp only [voucherKeys, List.mem_dedup, List.mem_map]
    exact ⟨x, hx, rfl⟩
  exact alookup_map_self
    (fun v => decide (|voucherDebitSum df v - voucherCreditSum df v| < 1 / 100))
    x.voucher_id (voucherKeys df) hv

/-- The record set used by the witness of `accounting_balance_stamp`: one
voucher whose debit and credit legs both carry 5. -/
def acctDfW : List AcctRow :=
  [⟨⟨2024, 1, 1⟩, "V1", "1001", "借", 5⟩, ⟨⟨2024, 1, 1⟩, "V1", "2001", "貸", 5⟩]

/-- The first output row of the accounting transform on `acctDfW`. -/
def acctRowW : AcctRowOut :=
  (AccountingTransformStrategy.transform acctDfW).head (by decide)

/-- Witness for `accounting_balance_stamp`: on the balanced voucher of
`acctDfW`, the first output row is stamped with the decided comparison. -/
theorem accounting_balance_stamp_witness :
    acctRowW.is_balanced
      = some (decide (|voucherDebitSum acctDfW acctRowW.base.voucher_id
          - voucherCreditSum acctDfW acctRowW.base.voucher_id| < 1 / 100)) :=
  accounting_balance_stamp acctDfW acctRowW (List.head_mem _)

/-! ## Default sales transform strategy (`DefaultSalesTransformStrategy.transform`) -/

/-- A date value with the calendar components `pd.to_datetime(...).dt`
exposes to the sales strategy. -/
structure SalesDate where
  year : Nat
  month : Nat
  day : Nat
  weekday : Nat
deriving Repr, DecidableEq

/-- One row of a sales record set.  A pandas column either exists for every
row or for none, so presence of the optional columns is tracked once per
frame (see `SalesFrame`), and the per-row field is only meaningful when the
frame has the column. -/
structure SalesRow where
  date : SalesDate
  total_price : ℚ
  amount : ℚ
  quantity : ℚ
  unit_price : ℚ
  discount : ℚ
deriving Repr, DecidableEq

/-- A sales record set: its rows plus which optional columns exist
(`'total_price' in df.columns` etc.). -/
structure SalesFrame where
  rows : List SalesRow
  hasTotalPrice : Bool
  hasQuantity : Bool
  hasUnitPrice : Bool
  hasDiscount : Bool
deriving Repr, DecidableEq

/-- One output row of the default sales strategy; columns created only under
a schema condition are `Option`-valued. -/
structure SalesRowOut where
  base : SalesRow
  year : Nat
  month : Nat
  day : Nat
  weekday : Nat
  revenue : ℚ
  discount_amount : Option ℚ
  profit_margin : Option ℚ
  profit : Option ℚ
  price_category : Option String
deriving DecidableEq

/-- `pd.cut` with right-closed bins: the label of the first interval
`(lo, hi]` containing `x`, or `NaN` (`none`) when no bin or label matches.
The top edge may be `float('inf')`, hence `WithTop ℚ`. -/
def cutCategory (x : ℚ) : List (WithTop ℚ) → List String → Option String
  | lo :: rest, labels =>
    match rest, labels with
    | hi :: _, lab :: labs =>
      if lo < (x : WithTop ℚ) ∧ (x : WithTop ℚ) ≤ hi then some lab
      else cutCategory x rest labs
    | _, _ => none
  | [], _ => none

/-- The default `price_bins` option: `[0, 1000, 5000, 10000, 50000, inf]`. -/
def defaultPriceBins : List (WithTop ℚ) :=
  [((0 : ℚ) : WithTop ℚ), ((1000 : ℚ) : WithTop ℚ), ((5000 : ℚ) : WithTop ℚ),
   ((10000 : ℚ) : WithTop ℚ), ((50000 : ℚ) : WithTop ℚ), ⊤]

/-- The default `price_labels` option. -/
def defaultPriceLabels : List String := ["極低", "低", "中", "高", "極高"]

namespace DefaultSalesTransformStrategy

/-- `DefaultSalesTransformStrategy.transform`: derives calendar fields;
`revenue` is `total_price` when that column exists, else `amount`; when
`quantity`, `unit_price` and `discount` all exist it computes
`discount_amount`, draws `profit_margin` from `np.random.uniform(0.15,
0.45)` — modelled by the ambient PRNG stream `rng`, whose draw for row `i`
is `rng i` — and computes `profit`; when `unit_price` exists it buckets it
with `pd.cut` over the caller-configurable bins and labels. -/
def transform (frame : SalesFrame) (price_bins : List (WithTop ℚ))
    (price_labels : List String) (rng : Nat → ℚ) : List SalesRowOut :=
  (List.range frame.rows.length).zip frame.rows |>.map (fun ir =>
    let i := ir.1
    let r := ir.2
    let revenue := if frame.hasTotalPrice then r.total_price else r.amount
    let hasQPD := frame.hasQuantity && frame.hasUnitPrice && frame.hasDiscount
    { base := r
      year := r.date.year
      month := r.date.month
      day := r.date.day
      weekday := r.date.weekday
      revenue := revenue
      discount_amount :=
        if hasQPD then some (r.quantity * r.unit_price * r.discount) else none
      profit_margin := if hasQPD then some (rng i) else none
      profit := if hasQPD then some (revenue * rng i) else none
      price_category :=
        if frame.hasUnitPrice then cutCategory r.unit_price price_bins price_labels
        else none })

end DefaultSalesTransformStrategy

/-- The frame used by the C5 counterexample: one row, with the
`quantity`/`unit_price`/`discount` columns present so the random
`profit_margin` branch is taken. -/
def salesFrameC : SalesFrame :=
  { rows := [⟨⟨2024, 1, 1, 0⟩, 100, 100, 1, 100, 0⟩]
    hasTotalPrice := true
    hasQuantity := true
    hasUnitPrice := true
    hasDiscount := true }

/-- C5 counterexample: the default sales strategy is not a deterministic
function of (record set, options): two invocations on the same frame with
the same options but different ambient PRNG draws (allowed draws of
`np.random.uniform(0.15, 0.45)`) give different outputs, differing in
`profit_margin`. -/
theorem default_sales_not_deterministic :
    DefaultSalesTransformStrategy.transform salesFrameC defaultPriceBins
        defaultPriceLabels (fun _ => 1 / 5)
      ≠ DefaultSalesTransformStrategy.transform salesFrameC defaultPriceBins
        defaultPriceLabels (fun _ => 2 / 5) := by
  intro h
  have h2 := congrArg (fun l => l.map (fun r => r.profit_margin)) h
  simp only [DefaultSalesTransformStrategy.transform, salesFrameC,
    List.length_cons, List.length_nil, List.range_succ, List.range_zero,
    List.nil_append, List.zip_cons_cons, List.zip_nil_right, List.map_cons,
    List.map_nil, Bool.and_self, if_true, List.cons.injEq, Option.some.injEq,
    and_true] at h2
  norm_num at h2

/-- C5 (amended): the accounting strategy draws no randomness, and the
default sales strategy is a deterministic function of (record set, options)
whenever the `quantity`, `unit_price` and `discount` columns are not all
present — only the `profit_margin` (and derived `profit`) columns, created
when all three are present, depend on the ambient PRNG. -/
theorem default_sales_deterministic_without_qpd (frame : SalesFrame)
    (price_bins : List (WithTop ℚ)) (price_labels : List String)
    (rng1 rng2 : Nat → ℚ)
    (h : (frame.hasQuantity && frame.hasUnitPrice && frame.hasDiscount) = false) :
    DefaultSalesTransformStrategy.transform frame price_bins price_labels rng1
      = DefaultSalesTransformStrategy.transform frame price_bins price_labels rng2 := by
  simp only [DefaultSalesTransformStrategy.transform, h, if_false, Bool.false_eq_true]

/-- Witness for `default_sales_deterministic_without_qpd`: a frame lacking
the `discount` column transforms identically under two different PRNG
streams. -/
theorem default_sales_deterministic_without_qpd_witness :
    ((true && true && false) = false)
    ∧ DefaultSalesTransformStrategy.transform
        { rows := [⟨⟨2024, 1, 1, 0⟩, 100, 100, 1, 100, 0⟩]
          hasTotalPrice := true, hasQuantity := true
          hasUnitPrice := true, hasDiscount := false }
        defaultPriceBins defaultPriceLabels (fun _ => 1 / 5)
      = DefaultSalesTransformStrategy.transform
        { rows := [⟨⟨2024, 1, 1, 0⟩, 100, 100, 1, 100, 0⟩]
          hasTotalPrice := true, hasQuantity := true
          hasUnitPrice := true, hasDiscount := false }
        defaultPriceBins defaultPriceLabels (fun _ => 2 / 5) :=
  ⟨rfl, default_sales_deterministic_without_qpd _ defaultPriceBins
    defaultPriceLabels (fun _ => 1 / 5) (fun _ => 2 / 5) rfl⟩

/-! ## Load processor (`processors/load.py`) -/

/-- One row of the transformed record set as the load stage reads it, with
the columns the three named aggregation recipes touch. -/
structure LoadRow where
  store_id : String
  store_name : String
  region : String
  product_id : String
  product_name : String
  category : String
  year : Nat
  month : Nat
  day : Nat
  weekday : Nat
  revenue : ℚ
  quantity : ℚ
  profit : ℚ
  discount_amount : ℚ
  transaction_id : String
deriving Repr, DecidableEq

/-- Grouped keys of a record set under a key projection (`df.groupby`). -/
def groupKeys {κ : Type} [DecidableEq κ] (key : LoadRow → κ) (df : List LoadRow) :
    List κ :=
  (df.map key).dedup

/-- One row of the `store` dimension report. -/
structure StoreAggRow where
  store_id : String
  store_name : String
  region : String
  year : Nat
  month : Nat
  revenue : ℚ
  quantity : ℚ
  profit : ℚ
  discount_amount : ℚ
  transaction_count : Nat
deriving Repr, DecidableEq

/-- The `store` aggregation: groupby (store_id, store_name, region, year,
month) with sums and an `nunique` transaction count. -/
def storeAgg (df : List LoadRow) : List StoreAggRow :=
  (groupKeys (fun r => (r.store_id, r.store_name, r.region, r.year, r.month)) df).map
    (fun k =>
      let g := df.filter
        (fun r => (r.store_id, r.store_name, r.region, r.year, r.month) = k)
      { store_id := k.1, store_name := k.2.1, region := k.2.2.1
        year := k.2.2.2.1, month := k.2.2.2.2
        revenue := (g.map (fun r => r.revenue)).sum
        quantity := (g.map (fun r => r.quantity)).sum
        profit := (g.map (fun r => r.profit)).sum
        discount_amount := (g.map (fun r => r.discount_amount)).sum
        transaction_count := ((g.map (fun r => r.transaction_id)).dedup).length })

/-- One row of the `product` dimension report. -/
structure ProductAggRow where
  product_id : String
  product_name : String
  category : String
  year : Nat
  month : Nat
  revenue : ℚ
  quantity : ℚ
  profit : ℚ
  discount_amount : ℚ
deriving Repr, DecidableEq

/-- The `product` aggregation: groupby (product_id, product_name, category,
year, month) with sums. -/
def productAgg (df : List LoadRow) : List ProductAggRow :=
  (groupKeys (fun r => (r.product_id, r.product_name, r.category, r.year, r.month)) df).map
    (fun k =>
      let g := df.filter
        (fun r => (r.product_id, r.product_name, r.category, r.year, r.month) = k)
      { product_id := k.1, product_name := k.2.1, category := k.2.2.1
        year := k.2.2.2.1, month := k.2.2.2.2
        revenue := (g.map (fun r => r.revenue)).sum
        quantity := (g.map (fun r => r.quantity)).sum
        profit := (g.map (fun r => r.profit)).sum
        discount_amount := (g.map (fun r => r.discount_amount)).sum })

/-- One row of the `date` dimension report. -/
structure DateAggRow where
  year : Nat
  month : Nat
  day : Nat
  weekday : Nat
  revenue : ℚ
  quantity : ℚ
  profit : ℚ
  discount_amount : ℚ
  transaction_count : Nat
deriving Repr, DecidableEq

/-- The `date` aggregation: groupby (year, month, day, weekday) with sums
and an `nunique` transaction count. -/
def dateAgg (df : List LoadRow) : List DateAggRow :=
  (groupKeys (fun r => (r.year, r.month, r.day, r.weekday)) df).map
    (fun k =>
      let g := df.filter (fun r => (r.year, r.month, r.day, r.weekday) = k)
      { year := k.1, month := k.2.1, day := k.2.2.1, weekday := k.2.2.2
        revenue := (g.map (fun r => r.revenue)).sum
        quantity := (g.map (fun r => r.quantity)).sum
        profit := (g.map (fun r => r.profit)).sum
        discount_amount := (g.map (fun r => r.discount_amount)).sum
        transaction_count := ((g.map (fun r => r.transaction_id)).dedup).length })

/-- The aggregated frame handed to the post-process hook and the writer;
one constructor per recipe shape.  A generic (caller-supplied
`groupby_cols`+`agg_dict`) recipe yields rows of column-value pairs. -/
inductive AggFrame where
  | store (rows : List StoreAggRow)
  | product (rows : List ProductAggRow)
  | date (rows : List DateAggRow)
  | generic (rows : List (List (String × ℚ)))

/-- The caller options consumed by `LoadProcessor.process`: `generic` is
`some` exactly when both `groupby_cols` and `agg_dict` are supplied (as the
pandas groupby-agg they denote), `post_process` is the optional
post-aggregation hook.  Write parameters are folded into the write
environment. -/
structure LoadOpts where
  generic : Option (List LoadRow → List (List (String × ℚ)))
  post_process : Option (AggFrame → AggFrame)

/-- The external write collaborator (`to_csv`/`to_excel` under `file_lock`):
given the filename and the frame it either succeeds (`none`) or raises an
exception of the returned kind. -/
structure WriteEnv where
  write : String → AggFrame → Option String

/-- The aggregation recipe `LoadProcessor.process` resolves for a dimension:
the three named dimensions have fixed recipes, any other dimension falls
back to the caller's generic recipe, and `none` is the `未知的分析維度`
branch that logs and returns `False`. -/
def loadRecipe (df : List LoadRow) (dimension : String) (opts : LoadOpts) :
    Option AggFrame :=
  if dimension = "store" then some (.store (storeAgg df))
  else if dimension = "product" then some (.product (productAgg df))
  else if dimension = "date" then some (.date (dateAgg df))
  else match opts.generic with
    | some g => some (.generic (g df))
    | none => none

/-- Apply the optional post-aggregation hook. -/
def applyPost (hook : Option (AggFrame → AggFrame)) (agg : AggFrame) : AggFrame :=
  match hook with
  | some h => h agg
  | none => agg

namespace LoadProcessor

/-- `LoadProcessor.process`: resolves the aggregation recipe (unknown
dimension with no generic recipe logs and returns `False`), applies the
post-process hook, writes the report under the file lock, and returns a
boolean; an exception raised by the write is caught, its kind recorded in
the stats sink, and `False` returned — nothing propagates past this
boundary (hence the plain `Bool × ETLStats` return type). -/
def process (env : WriteEnv) (stats : ETLStats) (df : List LoadRow)
    (dimension filename : String) (opts : LoadOpts) : Bool × ETLStats :=
  match loadRecipe df dimension opts with
  | none => (false, stats)
  | some agg =>
    let agg2 := applyPost opts.post_process agg
    match env.write filename agg2 with
    | none => (true, stats)
    | some k => (false, stats.record_error k)

end LoadProcessor

/-- A report configuration: a dimension, an optional filename (defaulted
from the output directory when absent), and optional per-report params that
override the global options. -/
structure Report where
  dimension : String
  filename : Option String
  params_generic : Option (List LoadRow → List (List (String × ℚ)))
  params_post : Option (AggFrame → AggFrame)

/-- `report_params = {**kwargs, **report['params']}`: per-report params win
key-by-key over the global options. -/
def mergeOpts (global : LoadOpts) (rp : Report) : LoadOpts :=
  { generic := match rp.params_generic with
      | some g => some g
      | none => global.generic
    post_process := match rp.params_post with
      | some h => some h
      | none => global.post_process }

/-- `results[dimension] = result`: Python dict assignment on an association
list. -/
def dictInsert {β : Type} (k : String) (b : β) :
    List (String × β) → List (String × β)
  | [] => [(k, b)]
  | (k2, v) :: rest =>
    if k2 = k then (k2, b) :: rest else (k2, v) :: dictInsert k b rest

/-- The filename `process_concurrent` resolves for a report. -/
def reportFilename (output_dir : String) (rp : Report) : String :=
  match rp.filename with
  | some fn => fn
  | none => output_dir ++ "/" ++ rp.dimension ++ "_report.csv"

namespace LoadProcessor

/-- The result-collection loop of `LoadProcessor.process_concurrent` over
`as_completed` futures, in completion order. -/
def loadLoop (env : WriteEnv) (rows : List LoadRow) (output_dir : String)
    (opts : LoadOpts) :
    List Report → List (String × Bool) × ETLStats → List (String × Bool) × ETLStats
  | [], acc => acc
  | rp :: rest, (results, s) =>
    let r := process env s rows rp.dimension (reportFilename output_dir rp)
      (mergeOpts opts rp)
    loadLoop env rows output_dir opts rest (dictInsert rp.dimension r.1 results, r.2)

/-- `LoadProcessor.process_concurrent`: returns the empty map at once when
the input record set is `None` or empty; otherwise runs one `process` task
per report over the thread pool and collects the per-dimension success map
in completion order (`completed` is the submitted reports in an arbitrary
completion order). -/
def process_concurrent (env : WriteEnv) (stats : ETLStats) (output_dir : String)
    (df : Option (List LoadRow)) (opts : LoadOpts) (completed : List Report) :
    List (String × Bool) × ETLStats :=
  match df with
  | none => ([], stats)
  | some rows =>
    if rows.length = 0 then ([], stats)
    else loadLoop env rows output_dir opts completed ([], stats)

end LoadProcessor

/-- `any(results.values())`: the orchestrator's lenient load-stage success
policy. -/
def ETLOrchestrator.loadSuccess (results : List (String × Bool)) : Bool :=
  results.any (fun p => p.2)

/-- The boolean a load task returns is independent of the stats sink it
updates. -/
theorem load_process_fst_stats {env : WriteEnv} {df : List LoadRow}
    {dimension filename : String} {opts : LoadOpts} (s1 s2 : ETLStats) :
    (LoadProcessor.process env s1 df dimension filename opts).1
      = (LoadProcessor.process env s2 df dimension filename opts).1 := by
  simp only [LoadProcessor.process]
  cases loadRecipe df dimension opts with
  | none => rfl
  | some agg =>
    simp only
    cases env.write filename (applyPost opts.post_process agg) with
    | none => rfl
    | some k => rfl

/-- The per-report boolean of a report, as `process_concurrent` computes it. -/
def reportResult (env : WriteEnv) (rows : List LoadRow) (output_dir : String)
    (opts : LoadOpts) (rp : Report) : Bool :=
  (LoadProcessor.process env ETLStats.empty rows rp.dimension
    (reportFilename output_dir rp) (mergeOpts opts rp)).1

theorem dictInsert_of_not_mem {β : Type} (k : String) (b : β)
    (m : List (String × β)) (hk : k ∉ m.map Prod.fst) :
    dictInsert k b m = m ++ [(k, b)] := by
  induction m with
  | nil => rfl
  | cons p rest ih =>
    obtain ⟨k2, v⟩ := p
    simp only [List.map_cons, List.mem_cons] at hk
    push_neg at hk
    simp only [dictInsert, if_neg (Ne.symm hk.1), List.cons_append,
      List.cons.injEq, true_and]
    exact ih hk.2

/-- Association-list lookup of a mapped list with pairwise-distinct keys
finds exactly the image of the member. -/
theorem alookup_map_key {γ β : Type} (key : γ → String) (f : γ → β)
    (l : List γ) (x : γ)
    (hnd : (l.map key).Nodup) (hmem : x ∈ l) :
    alookup (key x) (l.map (fun y => (key y, f y))) = some (f x) := by
  induction l with
  | nil => cases hmem
  | cons hd tl ih =>
    rw [List.map_cons, List.nodup_cons] at hnd
    simp only [List.map_cons, alookup]
    by_cases hk : key hd = key x
    · rw [if_pos hk]
      cases List.mem_cons.mp hmem with
      | inl h => rw [h]
      | inr h =>
        exfalso
        exact hnd.1 (hk ▸ List.mem_map.mpr ⟨x, h, rfl⟩)
    · rw [if_neg hk]
      cases List.mem_cons.mp hmem with
      | inl h => exact absurd (h ▸ rfl) hk
      | inr h => exact ih hnd.2 h

theorem loadLoop_results (env : WriteEnv) (rows : List LoadRow)
    (output_dir : String) (opts : LoadOpts) :
    ∀ (completed : List Report) (results : List (String × Bool)) (s : ETLStats),
      (completed.map (fun r => r.dimension)).Nodup →
      (∀ d ∈ completed.map (fun r => r.dimension), d ∉ results.map Prod.fst) →
      (LoadProcessor.loadLoop env rows output_dir opts completed (results, s)).1
        = results ++ completed.map
            (fun rp => (rp.dimension, reportResult env rows output_dir opts rp)) := by
  intro completed
  induction completed with
  | nil => intro results s _ _; simp [LoadProcessor.loadLoop]
  | cons rp rest ih =>
    intro results s hnd hdisj
    rw [List.map_cons, List.nodup_cons] at hnd
    simp only [LoadProcessor.loadLoop]
    have hb : (LoadProcessor.process env s rows rp.dimension
        (reportFilename output_dir rp) (mergeOpts opts rp)).1
        = reportResult env rows output_dir opts rp :=
      load_process_fst_stats s ETLStats.empty
    have hins : dictInsert rp.dimension
        (LoadProcessor.process env s rows rp.dimension
          (reportFilename output_dir rp) (mergeOpts opts rp)).1 results
        = results ++ [(rp.dimension, reportResult env rows output_dir opts rp)] := by
      rw [hb]
      exact dictInsert_of_not_mem _ _ _
        (hdisj rp.dimension (List.mem_cons_self _ _))
    rw [hins, ih]
    · simp
    · exact hnd.2
    · intro d hd
      simp only [List.map_append, List.map_cons, List.map_nil, List.mem_append,
        List.mem_cons, List.not_mem_nil]
      push_neg
      refine ⟨hdisj d (List.mem_cons_of_mem _ hd), fun hcontra => ?_, ?_⟩
      · exact hnd.1 (hcontra ▸ hd)
      · intro hfalse
        cases hfalse

/-- C4: `LoadProcessor.process_concurrent` returns a map from each report's
dimension to that report's boolean result (for any completion order, when
dimensions are pairwise distinct), and the orchestrator's Load stage success
`any(results.values())` is true exactly when at least one report succeeded. -/
theorem load_concurrent_result_map (env : WriteEnv) (stats : ETLStats)
    (output_dir : String) (rows : List LoadRow) (hrows : rows ≠ [])
    (opts : LoadOpts) (reports completed : List Report)
    (hperm : completed.Perm reports)
    (hnd : (reports.map (fun r => r.dimension)).Nodup) :
    (∀ rp ∈ reports,
      alookup rp.dimension
          (LoadProcessor.process_concurrent env stats output_dir (some rows)
            opts completed).1
        = some (reportResult env rows output_dir opts rp))
    ∧ (ETLOrchestrator.loadSuccess
          (LoadProcessor.process_concurrent env stats output_dir (some rows)
            opts completed).1 = true
        ↔ ∃ rp ∈ reports, reportResult env rows output_dir opts rp = true) := by
  have hlen : rows.length ≠ 0 := fun h => hrows (List.length_eq_zero.mp h)
  have hndc : (completed.map (fun r => r.dimension)).Nodup :=
    (hperm.map (fun r => r.dimension)).nodup_iff.mpr hnd
  have hmap : (LoadProcessor.process_concurrent env stats output_dir (some rows)
      opts completed).1
      = completed.map
          (fun rp => (rp.dimension, reportResult env rows output_dir opts rp)) := by
    simp only [LoadProcessor.process_concurrent, if_neg hlen]
    rw [loadLoop_results env rows output_dir opts completed [] stats hndc
      (by intro d _ hd; cases hd)]
    simp
  constructor
  · intro rp hrp
    rw [hmap]
    exact alookup_map_key (fun r => r.dimension)
      (reportResult env rows output_dir opts) completed rp hndc
      (hperm.mem_iff.mpr hrp)
  · rw [hmap]
    simp only [ETLOrchestrator.loadSuccess, List.any_eq_true, List.mem_map]
    constructor
    · rintro ⟨p, ⟨rp, hrp, rfl⟩, hp⟩
      exact ⟨rp, hperm.mem_iff.mp hrp, hp⟩
    · rintro ⟨rp, hrp, hres⟩
      exact ⟨_, ⟨rp, hperm.mem_iff.mpr hrp, rfl⟩, hres⟩

/-- A one-row record set used by the load/output witnesses. -/
def loadRowW : LoadRow :=
  ⟨"S1", "Store One", "North", "P1", "Widget", "Cat", 2024, 1, 1, 0,
   100, 1, 10, 0, "T1"⟩

/-- A write environment in which every write succeeds. -/
def envOkW : WriteEnv := ⟨fun _ _ => none⟩

/-- A write environment in which every write raises a `PermissionError`. -/
def envFailW : WriteEnv := ⟨fun _ _ => some "PermissionError"⟩

/-- Global load options with neither a generic recipe nor a hook. -/
def optsW : LoadOpts := ⟨none, none⟩

/-- R1: a report on the valid `store` dimension. -/
def reportR1 : Report := ⟨"store", some "data/final/store.csv", none, none⟩

/-- R2: a report on the unknown `region` dimension with no generic recipe. -/
def reportR2 : Report := ⟨"region", some "data/final/region.csv", none, none⟩

/-- Witness for `load_concurrent_result_map`: for reports [R1 valid,
R2 unknown dimension], collected in reverse completion order, the returned
map is `{store: true, region: false}` and the stage counts as successful. -/
theorem load_concurrent_result_map_witness :
    alookup "store"
        (LoadProcessor.process_concurrent envOkW ETLStats.empty "out"
          (some [loadRowW]) optsW [reportR2, reportR1]).1 = some true
    ∧ alookup "region"
        (LoadProcessor.process_concurrent envOkW ETLStats.empty "out"
          (some [loadRowW]) optsW [reportR2, reportR1]).1 = some false
    ∧ ETLOrchestrator.loadSuccess
        (LoadProcessor.process_concurrent envOkW ETLStats.empty "out"
          (some [loadRowW]) optsW [reportR2, reportR1]).1 = true := by
  have h := load_concurrent_result_map envOkW ETLStats.empty "out" [loadRowW]
    (List.cons_ne_nil _ _) optsW [reportR1, reportR2] [reportR2, reportR1]
    (List.Perm.swap reportR1 reportR2 []) (by simp [reportR1, reportR2])
  refine ⟨?_, ?_, ?_⟩
  · exact (h.1 reportR1 (List.mem_cons_self _ _)).trans (by rfl)
  · exact (h.1 reportR2 (List.mem_cons_of_mem _ (List.mem_cons_self _ _))).trans
      (by rfl)
  · exact h.2.mpr ⟨reportR1, List.mem_cons_self _ _, rfl⟩

/-- C7 counterexample: for a dimension that is none of store/product/date
and no generic recipe, `LoadProcessor.process` returns `False` with the
stats sink untouched — no `AggregationError` (or any error kind) is recorded
anywhere; the repository defines no `AggregationError` class at all. -/
theorem load_unknown_dimension_records_nothing :
    LoadProcessor.process envOkW ETLStats.empty [loadRowW] "region" "out/r.csv"
        optsW = (false, ETLStats.empty)
    ∧ countOf "AggregationError"
        (LoadProcessor.process envOkW ETLStats.empty [loadRowW] "region"
          "out/r.csv" optsW).2.error_counts = 0 :=
  ⟨rfl, rfl⟩

/-- C7 (amended): `LoadProcessor.process` never raises past its boundary —
it always returns a boolean (its embedded type is `Bool × ETLStats`, not
`Except`): an unknown dimension with no generic recipe logs and returns
`False` without recording anything in the stats sink; an exception of kind
`k` raised by the write is caught, recorded under `k`, and surfaces as a
`False` return; a successful write returns `True`. -/
theorem load_process_boundary (env : WriteEnv) (stats : ETLStats)
    (df : List LoadRow) (dimension filename : String) (opts : LoadOpts) :
    (dimension ≠ "store" → dimension ≠ "product" → dimension ≠ "date" →
        opts.generic = none →
        LoadProcessor.process env stats df dimension filename opts
          = (false, stats))
    ∧ (∀ agg k, loadRecipe df dimension opts = some agg →
        env.write filename (applyPost opts.post_process agg) = some k →
        LoadProcessor.process env stats df dimension filename opts
          = (false, stats.record_error k))
    ∧ (∀ agg, loadRecipe df dimension opts = some agg →
        env.write filename (applyPost opts.post_process agg) = none →
        LoadProcessor.process env stats df dimension filename opts
          = (true, stats)) := by
  refine ⟨?_, ?_, ?_⟩
  · intro h1 h2 h3 hgen
    simp only [LoadProcessor.process, loadRecipe, if_neg h1, if_neg h2, if_neg h3,
      hgen]
  · intro agg k hrec hw
    simp only [LoadProcessor.process, hrec, hw]
  · intro agg hrec hw
    simp only [LoadProcessor.process, hrec, hw]

/-- Witness for `load_process_boundary`: an unknown dimension returns
`(False, unchanged stats)`; a failing write on the `store` dimension is
caught and recorded; a succeeding write returns `True`. -/
theorem load_process_boundary_witness :
    LoadProcessor.process envFailW ETLStats.empty [loadRowW] "region"
        "out/r.csv" optsW = (false, ETLStats.empty)
    ∧ LoadProcessor.process envFailW ETLStats.empty [loadRowW] "store"
        "out/s.csv" optsW
        = (false, ETLStats.empty.record_error "PermissionError")
    ∧ LoadProcessor.process envOkW ETLStats.empty [loadRowW] "store"
        "out/s.csv" optsW = (true, ETLStats.empty) := by
  refine ⟨?_, ?_, ?_⟩
  · exact (load_process_boundary envFailW ETLStats.empty [loadRowW] "region"
      "out/r.csv" optsW).1 (by decide) (by decide) (by decide) rfl
  · exact (load_process_boundary envFailW ETLStats.empty [loadRowW] "store"
      "out/s.csv" optsW).2.1 (AggFrame.store (storeAgg [loadRowW]))
      "PermissionError" rfl rfl
  · exact (load_process_boundary envOkW ETLStats.empty [loadRowW] "store"
      "out/s.csv" optsW).2.2 (AggFrame.store (storeAgg [loadRowW])) rfl rfl

/-! ## Output processor (`processors/output.py`) -/

/-- An output configuration: an optional filename (a missing one raises
`ValueError` inside `process`, but `process_concurrent` fills in a default
before submitting) and format-specific write parameters, which the external
writer consumes. -/
structure OutputConfig where
  filename : Option String
  params : List (String × String)
deriving Repr, DecidableEq

namespace OutputProcessor

/-- `OutputProcessor.process`: requires a filename (`ValueError` otherwise,
caught by the boundary and recorded), resolves the writer by extension and
writes under the per-path lock — both folded into the external environment
`env : filename ↦ write outcome` — and layers the write parameters.  On
success it updates the stats sink with the row count and returns `True`;
every failure is caught, its kind recorded, and `False` returned. -/
def process {α : Type} (env : String → Option String) (stats : ETLStats)
    (df : List α) (config : OutputConfig) : Bool × ETLStats :=
  match config.filename with
  | none => (false, stats.record_error "ValueError")
  | some fn =>
    match env fn with
    | none => (true, stats.file_processed df.length)
    | some k => (false, stats.record_error k)

/-- The result-collection loop of `OutputProcessor.process_concurrent`:
entry `(i, config)` carries the submission index used for the default
filename `output_{i}.csv`; results are keyed by filename. -/
def outputLoop {α : Type} (env : String → Option String) (rows : List α)
    (output_dir : String) :
    List (Nat × OutputConfig) → List (String × Bool) × ETLStats →
      List (String × Bool) × ETLStats
  | [], acc => acc
  | (i, config) :: rest, (results, s) =>
    let fn := match config.filename with
      | some fn => fn
      | none => output_dir ++ "/output_" ++ toString i ++ ".csv"
    let r := process env s rows { config with filename := some fn }
    outputLoop env rows output_dir rest (dictInsert fn r.1 results, r.2)

/-- `OutputProcessor.process_concurrent`: returns the empty map at once when
the input record set is `None` or empty; otherwise fans the outputs over the
thread pool and collects the per-filename success map in completion order. -/
def process_concurrent {α : Type} (env : String → Option String)
    (stats : ETLStats) (output_dir : String) (df : Option (List α))
    (completed : List (Nat × OutputConfig)) :
    List (String × Bool) × ETLStats :=
  match df with
  | none => ([], stats)
  | some rows =>
    if rows.length = 0 then ([], stats)
    else outputLoop env rows output_dir completed ([], stats)

end OutputProcessor

/-- C10: on a `None` or empty input record set, both
`LoadProcessor.process_concurrent` and `OutputProcessor.process_concurrent`
return the empty result map with the stats sink untouched (no per-report or
per-output task runs), and the orchestrator's `any(results.values())` check
evaluates the empty map as stage failure. -/
theorem empty_input_returns_empty_map {α : Type} (env : WriteEnv)
    (envO : String → Option String) (stats : ETLStats) (output_dir : String)
    (opts : LoadOpts) (dfL : Option (List LoadRow)) (dfO : Option (List α))
    (hL : dfL = none ∨ dfL = some []) (hO : dfO = none ∨ dfO = some [])
    (completedR : List Report) (completedO : List (Nat × OutputConfig)) :
    LoadProcessor.process_concurrent env stats output_dir dfL opts completedR
        = ([], stats)
    ∧ OutputProcessor.process_concurrent envO stats output_dir dfO completedO
        = ([], stats)
    ∧ ETLOrchestrator.loadSuccess [] = false := by
  refine ⟨?_, ?_, rfl⟩
  · cases hL with
    | inl h => rw [h]; rfl
    | inr h => rw [h]; rfl
  · cases hO with
    | inl h => rw [h]; rfl
    | inr h => rw [h]; rfl

/-- Witness for `empty_input_returns_empty_map`: a `None` load input and an
empty output input produce empty maps and a failed stage even with a report
and an output config submitted. -/
theorem empty_input_returns_empty_map_witness :
    LoadProcessor.process_concurrent envOkW ETLStats.empty "out" none optsW
        [reportR1] = ([], ETLStats.empty)
    ∧ OutputProcessor.process_concurrent (fun _ => none) ETLStats.empty "out"
        (some ([] : List Nat)) [(0, ⟨some "out/a.csv", []⟩)]
        = ([], ETLStats.empty)
    ∧ ETLOrchestrator.loadSuccess [] = false :=
  empty_input_returns_empty_map envOkW (fun _ => none) ETLStats.empty "out"
    optsW none (some ([] : List Nat)) (Or.inl rfl) (Or.inr rfl)
    [reportR1] [(0, ⟨some "out/a.csv", []⟩)]

/-! ## Orchestrator (`orchestration/orchestrator.py`) -/

/-- The stage processors as the orchestrator sees them (injected at
construction): the merged extract result, and the per-stage concurrent
dispatchers as functions of their inputs. -/
structure StageEnv (α : Type) where
  extractResult : List α
  transformResult : List α → List α
  loadResults : List α → List Report → List (String × Bool)
  outputResults : List α → List OutputConfig → List (String × Bool)

/-- One observable stage execution of an orchestrator run, recording the
value it ran on or produced. -/
inductive StageEvent (α : Type) where
  | extractStage (result : List α)
  | transformStage (result : List α)
  | loadStage (results : List (String × Bool))
  | outputStage (input : List α) (results : List (String × Bool))

/-- `ETLOrchestrator.run` (base): Extract, then Transform, each aborting the
run with `False` when its result is empty; then Load, whose lenient
`any(results.values())` success is the run's return value.  (The Python
`reports=None` default is a fixed non-empty report list, so `reports` is
taken directly here.) -/
def ETLOrchestrator.run {α : Type} (env : StageEnv α) (reports : List Report) :
    Bool × List (StageEvent α) :=
  let extracted := env.extractResult
  let ev1 := [StageEvent.extractStage extracted]
  if extracted.length = 0 then (false, ev1)
  else
    let transformed := env.transformResult extracted
    let ev2 := ev1 ++ [StageEvent.transformStage transformed]
    if transformed.length = 0 then (false, ev2)
    else
      let results := env.loadResults transformed reports
      let ev3 := ev2 ++ [StageEvent.loadStage results]
      (ETLOrchestrator.loadSuccess results, ev3)

/-- `ETLOrchestratorWithOutput.run`: with no output configs and load not
skipped it delegates to the base run; otherwise Extract and Transform abort
on empty results as in the base run, the Load stage runs unless skipped or
without reports and its failure is only logged (the
`載入階段失敗，但仍繼續執行輸出階段` warning), the Output stage then runs on the
transformed record set whenever output configs are present, and the final
result combines the stage successes per the `skip_load`/`output_configs`
case split.  Python truthiness of `output_configs`/`reports` (`None` and the
empty list are both falsy) is rendered with `Option.isNone`/`List.isEmpty`. -/
def ETLOrchestratorWithOutput.run {α : Type} (env : StageEnv α)
    (reports : List Report) (output_configs : Option (List OutputConfig))
    (skip_load : Bool) : Bool × List (StageEvent α) :=
  if output_configs.isNone && !skip_load then
    ETLOrchestrator.run env reports
  else
    let extracted := env.extractResult
    let ev1 := [StageEvent.extractStage extracted]
    if extracted.length = 0 then (false, ev1)
    else
      let transformed := env.transformResult extracted
      let ev2 := ev1 ++ [StageEvent.transformStage transformed]
      if transformed.length = 0 then (false, ev2)
      else
        let ocs := output_configs.getD []
        let loadStep :=
          if !skip_load && !reports.isEmpty then
            let results := env.loadResults transformed reports
            (ETLOrchestrator.loadSuccess results,
              ev2 ++ [StageEvent.loadStage results])
          else (true, ev2)
        let outputStep :=
          if !ocs.isEmpty then
            let oresults := env.outputResults transformed ocs
            (oresults.any (fun p => p.2),
              loadStep.2 ++ [StageEvent.outputStage transformed oresults])
          else (true, loadStep.2)
        let final :=
          if skip_load && !ocs.isEmpty then outputStep.1
          else if !ocs.isEmpty then loadStep.1 && outputStep.1
          else loadStep.1
        (final, outputStep.2)

/-- C8: in the extended orchestrator with output configs given and the Load
stage not skipped, a failure of the entire Load stage (no report succeeded)
does not prevent the Output stage from executing on the transformed record
set; whereas an empty Extract result, or an empty Transform result, aborts
the run before Load with a `False` return value and no Load or Output stage
event. -/
theorem extended_run_gating {α : Type} (env : StageEnv α)
    (reports : List Report) (ocs : List OutputConfig)
    (hocs : ocs.isEmpty = false) (hreports : reports.isEmpty = false) :
    (env.extractResult ≠ [] →
      env.transformResult env.extractResult ≠ [] →
      ETLOrchestrator.loadSuccess
          (env.loadResults (env.transformResult env.extractResult) reports)
        = false →
      StageEvent.outputStage (env.transformResult env.extractResult)
          (env.outputResults (env.transformResult env.extractResult) ocs)
        ∈ (ETLOrchestratorWithOutput.run env reports (some ocs) false).2)
    ∧ (env.extractResult = [] →
        ETLOrchestratorWithOutput.run env reports (some ocs) false
          = (false, [StageEvent.extractStage []]))
    ∧ (env.extractResult ≠ [] →
        env.transformResult env.extractResult = [] →
        ETLOrchestratorWithOutput.run env reports (some ocs) false
          = (false, [StageEvent.extractStage env.extractResult,
              StageEvent.transformStage []])) := by
  refine ⟨?_, ?_, ?_⟩
  · intro hex htr _
    have hexl : ¬env.extractResult.length = 0 :=
      fun h => hex (List.length_eq_zero.mp h)
    have htrl : ¬(env.transformResult env.extractResult).length = 0 :=
      fun h => htr (List.length_eq_zero.mp h)
    simp [ETLOrchestratorWithOutput.run, hexl, htrl, hocs, hreports]
  · intro hex
    simp [ETLOrchestratorWithOutput.run, hex]
  · intro hex htr
    have hexl : ¬env.extractResult.length = 0 :=
      fun h => hex (List.length_eq_zero.mp h)
    simp [ETLOrchestratorWithOutput.run, hexl, htr]

/-- A concrete output config for the orchestrator witness. -/
def ocW : OutputConfig := ⟨some "out/a.csv", []⟩

/-- A stage environment whose Load stage fails on every report while Output
succeeds. -/
def envLoadFailsW : StageEnv Nat :=
  { extractResult := [1]
    transformResult := fun l => l
    loadResults := fun _ _ => [("store", false)]
    outputResults := fun _ _ => [("out/a.csv", true)] }

/-- A stage environment whose Extract stage yields no rows. -/
def envExtractEmptyW : StageEnv Nat :=
  { envLoadFailsW with extractResult := [] }

/-- A stage environment whose Transform stage yields no rows. -/
def envTransformEmptyW : StageEnv Nat :=
  { envLoadFailsW with transformResult := fun _ => [] }

/-- Witness for `extended_run_gating`: with one report and one output
config, a run whose every report fails still emits the Output stage event on
the transformed rows; an empty Extract or Transform result aborts with
`False` before Load. -/
theorem extended_run_gating_witness :
    (StageEvent.outputStage ([1] : List Nat) [("out/a.csv", true)]
        ∈ (ETLOrchestratorWithOutput.run envLoadFailsW [reportR1] (some [ocW])
            false).2)
    ∧ ETLOrchestratorWithOutput.run envExtractEmptyW [reportR1] (some [ocW])
        false = (false, [StageEvent.extractStage []])
    ∧ ETLOrchestratorWithOutput.run envTransformEmptyW [reportR1] (some [ocW])
        false
        = (false, [StageEvent.extractStage [1], StageEvent.transformStage []]) := by
  refine ⟨?_, ?_, ?_⟩
  · exact (extended_run_gating envLoadFailsW [reportR1] [ocW] rfl rfl).1
      (List.cons_ne_nil _ _) (List.cons_ne_nil _ _) rfl
  · exact (extended_run_gating envExtractEmptyW [reportR1] [ocW] rfl rfl).2.1 rfl
  · exact (extended_run_gating envTransformEmptyW [reportR1] [ocW] rfl rfl).2.2
      (List.cons_ne_nil _ _) rfl

/-! ## File lock manager (`utils/file_lock_manager.py`) -/

/-- The per-path lock registry: a map from normalized absolute path to a
lock, plus the manager's own lock (mutual exclusion of registry mutation is
implicit in the sequential embedding).  Lock objects are identified by the
order in which they were created, so two lock values are the identical
Python object exactly when their ids are equal. -/
structure FileLockManager where
  locks : List (String × Nat)
  next_id : Nat

def FileLockManager.empty : FileLockManager := ⟨[], 0⟩

/-- `FileLockManager.get_lock`: normalizes the path with
`os.path.normpath(os.path.abspath(...))` — the external `norm` collaborator
— and returns the registered lock for that normalized path, creating a
fresh one when absent. -/
def FileLockManager.get_lock (norm : String → String) (m : FileLockManager)
    (p : String) : Nat × FileLockManager :=
  let np := norm p
  match alookup np m.locks with
  | some id => (id, m)
  | none => (m.next_id, ⟨m.locks ++ [(np, m.next_id)], m.next_id + 1⟩)

/-- A sequence of `get_lock` calls, returning the locks in call order. -/
def FileLockManager.run_calls (norm : String → String) (m : FileLockManager) :
    List String → List Nat × FileLockManager
  | [] => ([], m)
  | p :: ps =>
    let r1 := FileLockManager.get_lock norm m p
    let r2 := FileLockManager.run_calls norm r1.2 ps
    (r1.1 :: r2.1, r2.2)

/-- Registry invariant: every registered lock id is below the allocation
counter, and no id is registered under two different normalized paths. -/
def LockWF (m : FileLockManager) : Prop :=
  (∀ p id, alookup p m.locks = some id → id < m.next_id)
  ∧ (∀ p q id, alookup p m.locks = some id → alookup q m.locks = some id → p = q)

theorem lockWF_empty : LockWF FileLockManager.empty := by
  constructor
  · intro p id h
    cases h
  · intro p q id h
    cases h

theorem alookup_append {β : Type} (k : String) (l1 l2 : List (String × β)) :
    alookup k (l1 ++ l2)
      = match alookup k l1 with
        | some b => some b
        | none => alookup k l2 := by
  induction l1 with
  | nil => simp [alookup]
  | cons p rest ih =>
    obtain ⟨k2, b⟩ := p
    by_cases hk : k2 = k
    · simp [alookup, hk]
    · simp [alookup, hk, ih]

/-- `get_lock` specification: the invariant is preserved, the returned lock
is registered under the normalized path afterwards, and existing
registrations are untouched. -/
theorem get_lock_spec (norm : String → String) (m : FileLockManager)
    (p : String) (hwf : LockWF m) :
    LockWF (FileLockManager.get_lock norm m p).2
    ∧ alookup (norm p) (FileLockManager.get_lock norm m p).2.locks
        = some (FileLockManager.get_lock norm m p).1
    ∧ (∀ q id, alookup q m.locks = some id →
        alookup q (FileLockManager.get_lock norm m p).2.locks = some id) := by
  simp only [FileLockManager.get_lock]
  cases hcase : alookup (norm p) m.locks with
  | some id =>
    simp only
    exact ⟨hwf, hcase, fun q i h => h⟩
  | none =>
    simp only
    have hlook : ∀ q, alookup q (m.locks ++ [(norm p, m.next_id)])
        = match alookup q m.locks with
          | some b => some b
          | none => if norm p = q then some m.next_id else none := by
      intro q
      rw [alookup_append]
      cases alookup q m.locks with
      | some b => rfl
      | none => simp [alookup]
    refine ⟨⟨?_, ?_⟩, ?_, ?_⟩
    · intro q id h
      rw [hlook q] at h
      cases hq : alookup q m.locks with
      | some b =>
        rw [hq] at h
        cases h
        exact Nat.lt_succ_of_lt (hwf.1 q _ hq)
      | none =>
        rw [hq] at h
        by_cases hnp : norm p = q
        · rw [if_pos hnp] at h
          cases h
          exact Nat.lt_succ_self _
        · rw [if_neg hnp] at h
          cases h
    · intro q r id hq hr
      rw [hlook q] at hq
      rw [hlook r] at hr
      cases hq2 : alookup q m.locks with
      | some b =>
        rw [hq2] at hq
        cases hq
        cases hr2 : alookup r m.locks with
        | some c =>
          rw [hr2] at hr
          cases hr
          exact hwf.2 q r id hq2 hr2
        | none =>
          rw [hr2] at hr
          by_cases hnp : norm p = r
          · rw [if_pos hnp] at hr
            cases hr
            exact absurd (hwf.1 q _ hq2) (Nat.lt_irrefl _)
          · rw [if_neg hnp] at hr
            cases hr
      | none =>
        rw [hq2] at hq
        by_cases hnp : norm p = q
        · rw [if_pos hnp] at hq
          cases hq
          cases hr2 : alookup r m.locks with
          | some c =>
            rw [hr2] at hr
            cases hr
            exact absurd (hwf.1 r _ hr2) (Nat.lt_irrefl _)
          | none =>
            rw [hr2] at hr
            by_cases hnp2 : norm p = r
            · rw [if_pos hnp2] at hr
              exact hnp ▸ hnp2
            · rw [if_neg hnp2] at hr
              cases hr
        · rw [if_neg hnp] at hq
          cases hq
    · rw [hlook (norm p), hcase, if_pos rfl]
    · intro q id h
      rw [hlook q, h]

/-- Running a call sequence preserves the invariant, preserves existing
registrations, and registers each call's returned lock under its path's
normalization. -/
theorem run_calls_spec (norm : String → String) (paths : List String) :
    ∀ (m : FileLockManager), LockWF m →
      LockWF (FileLockManager.run_calls norm m paths).2
      ∧ (∀ q id, alookup q m.locks = some id →
          alookup q (FileLockManager.run_calls norm m paths).2.locks = some id)
      ∧ (∀ pr ∈ (FileLockManager.run_calls norm m paths).1.zip paths,
          alookup (norm pr.2)
              (FileLockManager.run_calls norm m paths).2.locks = some pr.1) := by
  induction paths with
  | nil =>
    intro m hwf
    exact ⟨hwf, fun q id h => h, fun pr hpr => absurd hpr (List.not_mem_nil pr)⟩
  | cons p ps ih =>
    intro m hwf
    obtain ⟨hwf1, hreg1, hkeep1⟩ := get_lock_spec norm m p hwf
    obtain ⟨hwff, hkeepf, hzipf⟩ :=
      ih (FileLockManager.get_lock norm m p).2 hwf1
    simp only [FileLockManager.run_calls]
    refine ⟨hwff, ?_, ?_⟩
    · intro q id h
      exact hkeepf q id (hkeep1 q id h)
    · intro pr hpr
      rw [List.zip_cons_cons] at hpr
      cases List.mem_cons.mp hpr with
      | inl h =>
        subst h
        exact hkeepf _ _ hreg1
      | inr h =>
        exact hzipf pr h

/-- C9: over any sequence of `get_lock` calls on a fresh manager, two calls
receive the identical lock object exactly when their paths have the same
normalized absolute path; in particular repeated calls with one path return
one lock, and distinct normalized paths receive distinct locks.  (`pr1`,
`pr2` pair each call's returned lock with the path it was called on.) -/
theorem get_lock_identical_iff (norm : String → String) (paths : List String)
    (pr1 pr2 : Nat × String)
    (h1 : pr1 ∈ (FileLockManager.run_calls norm FileLockManager.empty
        paths).1.zip paths)
    (h2 : pr2 ∈ (FileLockManager.run_calls norm FileLockManager.empty
        paths).1.zip paths) :
    pr1.1 = pr2.1 ↔ norm pr1.2 = norm pr2.2 := by
  obtain ⟨hwff, _, hzip⟩ := run_calls_spec norm paths FileLockManager.empty
    lockWF_empty
  have e1 := hzip pr1 h1
  have e2 := hzip pr2 h2
  constructor
  · intro hid
    exact hwff.2 (norm pr1.2) (norm pr2.2) pr1.1 e1 (hid ▸ e2)
  · intro hn
    rw [hn] at e1
    rw [e1] at e2
    exact Option.some_injective _ e2

/-- The normalization used by the C9 witness: `b/../a` and `a` normalize to
the same absolute path. -/
def normW : String → String :=
  fun s => if s = "b/../a" then "/root/a" else "/root/" ++ s

/-- Witness for `get_lock_identical_iff`: calling for `a`, `b`, `b/../a`,
the first and third call share a lock (same normalized path) and the first
and second do not. -/
theorem get_lock_identical_iff_witness :
    (((0 : Nat) = 0) ↔ normW "a" = normW "b/../a")
    ∧ (((0 : Nat) = 1) ↔ normW "a" = normW "b") := by
  have hw1 := get_lock_identical_iff normW ["a", "b", "b/../a"]
    (0, "a") (0, "b/../a") (by decide) (by decide)
  have hw2 := get_lock_identical_iff normW ["a", "b", "b/../a"]
    (0, "a") (1, "b") (by decide) (by decide)
  exact ⟨hw1, hw2⟩
